import Mathlib

/-!
Verification of `checkin.py` (anyrouter-check-in): a shallow embedding of the
cookie parser, the balance fingerprint, the browser check-in session and the
run coordinator (`main`), with theorems settling the frozen claims about them.

Machine-level conventions: Python strings are modelled by Lean `String`
(`List Char` underneath, code points); Python byte values and 32-bit words are
`Nat` with explicit `% 2 ^ 32` masking; Python `dict`s are association lists
with unique keys and insertion order.
-/

namespace Anyrouter

/-! ## String helpers mirroring the Python primitives used by `checkin.py` -/

/-- Python's `str.strip` whitespace set, restricted to the ASCII whitespace
characters (the script's inputs are ASCII around the separators). -/
def pySpace (c : Char) : Bool :=
  c == ' ' || c == '\t' || c == '\n' || c == '\r' || c == '\x0b' || c == '\x0c'

/-- `str.strip()` on the character list of a string. -/
def stripChars (l : List Char) : List Char :=
  ((l.dropWhile pySpace).reverse.dropWhile pySpace).reverse

/-- Python's `s.split(c)` for a one-character separator: keeps empty segments,
`"".split(c) = [""]`. -/
def splitOnChar (c : Char) : List Char → List (List Char)
  | [] => [[]]
  | d :: t =>
      let r := splitOnChar c t
      if d == c then [] :: r
      else
        match r with
        | [] => [[d]]
        | h :: t2 => (d :: h) :: t2

/-- Python's substring containment `needle in hay` on character lists. -/
def subList (needle : List Char) : List Char → Bool
  | [] => needle.isEmpty
  | c :: t => needle.isPrefixOf (c :: t) || subList needle t

/-- Python's `needle in hay` on strings. -/
def pyIn (needle hay : String) : Bool :=
  subList needle.data hay.data

/-- `any(n in hay for n in needles)`. -/
def containsAnySub (hay : String) (needles : List String) : Bool :=
  needles.any (fun n => pyIn n hay)

/-- Python's `s[:n]` string slice. -/
def pyTake (n : Nat) (s : String) : String :=
  String.mk (s.data.take n)

/-! ## CookieCodec: `parse_cookies` (checkin.py lines 53-65) -/

/-- The possible runtime types of `account.cookies` reaching `parse_cookies`:
a dict, a string, or anything else. A Python dict is an association list with
unique keys in insertion order. -/
inductive CookiesData where
  | dict (d : List (String × String))
  | str (s : String)
  | other
deriving DecidableEq

/-- Python `d[k] = v` on a dict represented as an insertion-ordered
association list: overwrite in place if the key exists, else append. -/
def dictInsert (m : List (String × String)) (k v : String) : List (String × String) :=
  if m.any (fun p => p.1 == k) then
    m.map (fun p => if p.1 == k then (k, v) else p)
  else m ++ [(k, v)]

/-- `parse_cookies` (checkin.py lines 53-65): dict passthrough; for a string,
split on `;`, for each segment containing `=`, strip the whole segment and
split on the first `=`; anything else gives `{}`. -/
def parse_cookies : CookiesData → List (String × String)
  | .dict d => d
  | .str s =>
      (splitOnChar ';' s.data).foldl
        (fun m cookie =>
          if cookie.any (fun c => c == '=') then
            let t := stripChars cookie
            let key := String.mk (t.takeWhile (fun c => c != '='))
            let value := String.mk ((t.dropWhile (fun c => c != '=')).drop 1)
            dictInsert m key value
          else m) []
  | .other => []

/-! ## SHA-256 (the `hashlib.sha256` primitive used by `generate_balance_hash`),
32-bit words as `Nat` with explicit masking. Verified below against the FIPS
180-4 test vectors. -/

def M32 : Nat := 4294967296

def add32 (a b : Nat) : Nat := (a + b) % M32

/-- Right rotation of a 32-bit word. -/
def rotr (n x : Nat) : Nat :=
  (x >>> n) ||| ((x % (2 ^ n)) <<< (32 - n))

def not32 (x : Nat) : Nat := x ^^^ (M32 - 1)

def ssig0 (w : Nat) : Nat := (rotr 7 w) ^^^ (rotr 18 w) ^^^ (w >>> 3)

def ssig1 (w : Nat) : Nat := (rotr 17 w) ^^^ (rotr 19 w) ^^^ (w >>> 10)

def bsig0 (a : Nat) : Nat := (rotr 2 a) ^^^ (rotr 13 a) ^^^ (rotr 22 a)

def bsig1 (e : Nat) : Nat := (rotr 6 e) ^^^ (rotr 11 e) ^^^ (rotr 25 e)

def shaK : List Nat :=
  [1116352408, 1899447441, 3049323471, 3921009573, 961987163,
   1508970993, 2453635748, 2870763221, 3624381080, 310598401,
   607225278, 1426881987, 1925078388, 2162078206, 2614888103,
   3248222580, 3835390401, 4022224774, 264347078, 604807628,
   770255983, 1249150122, 1555081692, 1996064986, 2554220882,
   2821834349, 2952996808, 3210313671, 3336571891, 3584528711,
   113926993, 338241895, 666307205, 773529912, 1294757372,
   1396182291, 1695183700, 1986661051, 2177026350, 2456956037,
   2730485921, 2820302411, 3259730800, 3345764771, 3516065817,
   3600352804, 4094571909, 275423344, 430227734, 506948616,
   659060556, 883997877, 958139571, 1322822218, 1537002063,
   1747873779, 1955562222, 2024104815, 2227730452, 2361852424,
   2428436474, 2756734187, 3204031479, 3329325298]

structure Hash8 where
  a : Nat
  b : Nat
  c : Nat
  d : Nat
  e : Nat
  f : Nat
  g : Nat
  hh : Nat

def shaH0 : Hash8 :=
  ⟨1779033703, 3144134277, 1013904242, 2773480762,
   1359893119, 2600822924, 528734635, 1541459225⟩

/-- Big-endian grouping of bytes into 32-bit words. -/
def bytesToWords : List Nat → List Nat
  | b0 :: b1 :: b2 :: b3 :: rest =>
      (((b0 <<< 24) ||| (b1 <<< 16)) ||| ((b2 <<< 8) ||| b3)) :: bytesToWords rest
  | _ => []

/-- SHA-256 message padding: append `0x80`, zero bytes up to 56 mod 64, then
the bit length as 8 big-endian bytes. -/
def shaPad (msg : List Nat) : List Nat :=
  let len := msg.length
  let zeros := (119 - len % 64) % 64
  let bitLen := len * 8
  msg ++ [0x80] ++ List.replicate zeros 0 ++
    [(bitLen >>> 56) % 256, (bitLen >>> 48) % 256, (bitLen >>> 40) % 256,
     (bitLen >>> 32) % 256, (bitLen >>> 24) % 256, (bitLen >>> 16) % 256,
     (bitLen >>> 8) % 256, bitLen % 256]

/-- Extend the 16 block words to the 64-entry message schedule (fueled). -/
def shaExtend : Nat → List Nat → List Nat
  | 0, ws => ws
  | fuel + 1, ws =>
      let t := ws.length
      let w := add32 (add32 (ssig1 (ws.getD (t - 2) 0)) (ws.getD (t - 7) 0))
                     (add32 (ssig0 (ws.getD (t - 15) 0)) (ws.getD (t - 16) 0))
      shaExtend fuel (ws ++ [w])

/-- One SHA-256 round. -/
def shaStep (st : Hash8) (wk : Nat × Nat) : Hash8 :=
  let t1 := add32 st.hh (add32 (bsig1 st.e)
              (add32 ((st.e &&& st.f) ^^^ ((not32 st.e) &&& st.g))
                     (add32 wk.2 wk.1)))
  let t2 := add32 (bsig0 st.a) (((st.a &&& st.b) ^^^ (st.a &&& st.c)) ^^^ (st.b &&& st.c))
  ⟨add32 t1 t2, st.a, st.b, st.c, add32 st.d t1, st.e, st.f, st.g⟩

/-- Compression of one 64-byte block. -/
def shaCompress (st : Hash8) (block : List Nat) : Hash8 :=
  let ws := shaExtend 48 (bytesToWords block)
  let r := (ws.zip shaK).foldl shaStep st
  ⟨add32 st.a r.a, add32 st.b r.b, add32 st.c r.c, add32 st.d r.d,
   add32 st.e r.e, add32 st.f r.f, add32 st.g r.g, add32 st.hh r.hh⟩

/-- Process the padded byte stream in 64-byte blocks (fueled by block count). -/
def shaBlocks : Nat → Hash8 → List Nat → Hash8
  | 0, st, _ => st
  | fuel + 1, st, bytes =>
      match bytes with
      | [] => st
      | _ => shaBlocks fuel (shaCompress st (bytes.take 64)) (bytes.drop 64)

def hexChar (n : Nat) : Char :=
  "0123456789abcdef".data.getD n '0'

def hex8 (w : Nat) : String :=
  String.mk ((List.range 8).map (fun i => hexChar ((w >>> ((7 - i) * 4)) &&& 15)))

/-- `hashlib.sha256(s.encode()).hexdigest()` for an ASCII string `s`
(the fingerprint inputs built by the script are ASCII). -/
def sha256hex (s : String) : String :=
  let bytes := s.data.map Char.toNat
  let padded := shaPad bytes
  let st := shaBlocks (padded.length / 64) shaH0 padded
  hex8 st.a ++ hex8 st.b ++ hex8 st.c ++ hex8 st.d ++
    hex8 st.e ++ hex8 st.f ++ hex8 st.g ++ hex8 st.hh

/-- `hexdigest()[:16]`, the truncation used by `generate_balance_hash`. -/
def sha256hex16 (s : String) : String :=
  String.mk ((sha256hex s).data.take 16)

/-! ## BalanceLedger: `generate_balance_hash` (checkin.py lines 46-50)

`json.dumps(simple_balances, sort_keys=True, separators=(',', ':'))` is
modelled by sorting the key/value pairs and joining `"key":value` segments
with `,` inside braces.  A quota value is carried as the JSON number token
`repr` produces for the Python float (an injective image of the float), so
the value type is `String`.  Key escaping covers `"` and `\` (the script's
keys are `account_<i>`; control and non-ASCII escapes are not exercised).
Sorting compares pairs lexicographically, which on the unique-key lists a
Python dict produces coincides with `sort_keys=True`. -/

structure BalanceInfo where
  quota : String
  used : String
deriving DecidableEq

def escChar (c : Char) : List Char :=
  if c == '"' then ['\\', '"'] else if c == '\\' then ['\\', '\\'] else [c]

def escJson (s : String) : String :=
  String.mk ((s.data.map escChar).flatten)

def keyPart (k : String) : String :=
  "\"" ++ escJson k ++ "\":"

def renderPair (p : String × String) : String :=
  keyPart p.1 ++ p.2

/-- `','.join` of the rendered segments (`separators=(',', ':')`). -/
def joinSep : List String → String
  | [] => ""
  | [x] => x
  | x :: y :: t => x ++ ("," ++ joinSep (y :: t))

/-- Python's `<` on strings: lexicographic comparison of code points
(structurally recursive so that it evaluates). -/
def keyLtB : List Char → List Char → Bool
  | _, [] => false
  | [], _ :: _ => true
  | c :: cs, d :: ds => if c = d then keyLtB cs ds else decide (c < d)

/-- Total preorder on rendered key/value pairs: by key (code-point order),
then by value.  On the unique-key pair lists a Python dict produces this
sorts exactly as `sort_keys=True` does. -/
def pairLe (p q : String × String) : Prop :=
  keyLtB p.1.data q.1.data = true ∨
    (p.1.data = q.1.data ∧ keyLtB q.2.data p.2.data = false)

instance : DecidableRel pairLe := fun p q => by
  unfold pairLe; infer_instance

def sortPairs (l : List (String × String)) : List (String × String) :=
  List.insertionSort pairLe l

/-- `json.dumps({k: quota}, sort_keys=True, separators=(',', ':'))`. -/
def balance_json (pairs : List (String × String)) : String :=
  "\x7b" ++ joinSep ((sortPairs pairs).map renderPair) ++ "\x7d"

/-- `{k: v['quota'] for k, v in balances.items()}`. -/
def quotaPairs (b : List (String × BalanceInfo)) : List (String × String) :=
  b.map (fun p => (p.1, p.2.quota))

/-- `generate_balance_hash` (checkin.py lines 46-50). -/
def generate_balance_hash (balances : List (String × BalanceInfo)) : String :=
  let simple := if balances.isEmpty then [] else quotaPairs balances
  sha256hex16 (balance_json simple)

/-! ## CheckInSession: `run_playwright_checkin` (checkin.py lines 74-212)

The browser is abstracted as a `PageWorld`: the address the page ends up at
after navigation, the rendered content at the first scan, the DOM elements the
text locators can see, the content at the post-click re-scan, and the HTTP
status the check-in endpoint would answer with.  An element records its
(normalized) text, whether it is visible, whether clicking it succeeds
(`clickOk = false` models `element.click` raising), and whether it matches
the `.ui.button` CSS selector.  Playwright's non-exact `get_by_text` is
modelled as substring match (its case folding is not exercised by the
claims).  Navigation/`networkidle` timeouts are caught and ignored by the
code (lines 116-126), so they do not appear in the state. -/

structure Element where
  text : String
  visible : Bool
  clickOk : Bool
  uiButton : Bool
deriving DecidableEq

structure PageWorld where
  urlAfterNav : String
  content : String
  elements : List Element
  contentAfter : String
  actionStatus : Nat
deriving DecidableEq

/-- Outcome of one session: which detections fired, whether element discovery
was entered, whether a click happened, and the returned boolean
(`True` = success, `False` = failure; the code returns a bare bool, no
reason string). -/
structure SessionTrace where
  alreadySigned : Bool
  discoveryAttempted : Bool
  clicked : Bool
  result : Bool
deriving DecidableEq

def already_markers : List String := ["已签到", "今日已签", "Signed in"]

def button_texts : List String := ["立即签到", "签到", "打卡", "Sign In", "Check in"]

def success_keywords : List String := ["已签到", "成功", "Success", "获得", "received"]

/-- `page.get_by_text(t, exact=True)`. -/
def getByTextExact (els : List Element) (t : String) : List Element :=
  els.filter (fun e => e.text == t)

/-- `page.get_by_text(t)` (substring match). -/
def getByTextSub (els : List Element) (t : String) : List Element :=
  els.filter (fun e => pyIn t e.text)

/-- Lines 146-150: exact locator first, substring locator if it is empty. -/
def locatorFor (els : List Element) (t : String) : List Element :=
  let ex := getByTextExact els t
  if ex.isEmpty then getByTextSub els t else ex

/-- Lines 156-165: walk the matches, skip invisible ones, try to click each
visible one until a click does not raise. -/
def clickFirstVisible (es : List Element) : Bool :=
  es.any (fun e => e.visible && e.clickOk)

/-- Lines 170-178: `.ui.button` elements filtered by `has_text="签到"`; click
the first if visible (a raising click is swallowed by the bare `except`). -/
def cssFallbackClick (els : List Element) : Bool :=
  match els.filter (fun e => e.uiButton && pyIn "签到" e.text) with
  | [] => false
  | e :: _ => e.visible && e.clickOk

/-- `run_playwright_checkin` (checkin.py lines 74-212) on an abstract page.
Note what the code does *not* do: `page.url` is never read (no
login-redirect check), and no network response or HTTP status is awaited
after the click — after any successful click the function returns `True`
on both branches of the keyword re-scan (lines 200-205). -/
def run_playwright_checkin (w : PageWorld) : SessionTrace :=
  if containsAnySub w.content already_markers then
    ⟨true, false, false, true⟩
  else
    let textClicked := button_texts.any (fun t => clickFirstVisible (locatorFor w.elements t))
    let clicked := textClicked || cssFallbackClick w.elements
    if clicked then
      let is_success := containsAnySub w.contentAfter success_keywords
      ⟨false, true, true, if is_success then true else true⟩
    else
      ⟨false, true, false, false⟩

/-- Modelled from the spec: "the resulting address indicates a login page"
(the code itself contains no such predicate; checkin.py never inspects the
post-navigation address). -/
def indicatesLoginPage (url : String) : Bool :=
  pyIn "login" url

/-! ## RunCoordinator: `main` (checkin.py lines 298-393)

Per-account processing (`check_in_account` plus the `try/except` around it,
lines 322-347) is abstracted by its observable result: either the account's
iteration raised (`exc msg`), or it returned `(success, user_info)` where
`user_info` is `none` or a `UserInfo` whose `success` field is the probe's
success flag.  Quota and used-quota are carried as their display tokens
(see `BalanceInfo`).  File and notifier side effects are recorded as output
fields: `savedHash = none` means `save_balance_hash` was never called. -/

structure UserInfo where
  success : Bool
  quota : String
  used : String
deriving DecidableEq

inductive AccountResult where
  | exc (msg : String)
  | ok (checkSuccess : Bool) (userInfo : Option UserInfo)
deriving DecidableEq

/-- `f'account_{i + 1}'` (line 323). -/
def accountKey (i : Nat) : String :=
  "account_" ++ toString (i + 1)

/-- Loop state of `main`: `success_count`, `notification_content`,
`current_balances`, `need_notify`. -/
structure RunState where
  successCount : Nat
  notificationContent : List String
  currentBalances : List (String × BalanceInfo)
  needNotify : Bool
deriving DecidableEq

/-- Body of the per-account loop (lines 322-347) for account index `i` with
display name `name`. -/
def processAccount (i : Nat) (name : String) (r : AccountResult) (st : RunState) : RunState :=
  match r with
  | .exc msg =>
      { st with
        needNotify := true,
        notificationContent := st.notificationContent ++
          ["[FAIL] " ++ name ++ " exception: " ++ pyTake 50 msg ++ "..."] }
  | .ok succ ui =>
      let st1 := if succ then { st with successCount := st.successCount + 1 } else st
      let st2 :=
        match ui with
        | some info =>
            if info.success then
              { st1 with currentBalances :=
                  st1.currentBalances ++ [(accountKey i, ⟨info.quota, info.used⟩)] }
            else st1
        | none => st1
      if succ then st2
      else
        { st2 with
          needNotify := true,
          notificationContent := st2.notificationContent ++
            ["[FAIL] " ++ name ++ " Check-in failed"] }

def runLoopAux (i : Nat) (pairs : List (String × AccountResult)) (st : RunState) : RunState :=
  match pairs with
  | [] => st
  | p :: rest => runLoopAux (i + 1) rest (processAccount i p.1 p.2 st)

/-- The balance-change decision of lines 350-362: no current hash leaves
`balance_changed` at `False`; otherwise a missing previous hash or a
differing one sets it. -/
def balance_changed_decision (last current : Option String) : Bool :=
  match current with
  | none => false
  | some c =>
      match last with
      | none => true
      | some l => c != l

/-- Balance lines appended when a change was detected (lines 365-371). -/
def balanceLinesAux (bals : List (String × BalanceInfo)) :
    Nat → List (String × AccountResult) → List String
  | _, [] => []
  | i, p :: rest =>
      (match bals.find? (fun q => q.1 == accountKey i) with
       | some b =>
           ["[BALANCE] " ++ p.1 ++ "\n:money: Balance: $" ++ b.2.quota ++
             ", Used: $" ++ b.2.used]
       | none => []) ++ balanceLinesAux bals (i + 1) rest

/-- Observable outcome of one `main` run. -/
structure RunOutput where
  successCount : Nat
  totalCount : Nat
  notificationContent : List String
  currentBalances : List (String × BalanceInfo)
  currentBalanceHash : Option String
  balanceChanged : Bool
  savedHash : Option String
  notificationSent : Bool
  exitCode : Nat
deriving DecidableEq

/-- `main` (checkin.py lines 298-393) given the per-account results and the
persisted fingerprint read by `load_balance_hash`.  An empty account list
exits `1` before the loop (line 309). -/
def runMain (pairs : List (String × AccountResult)) (lastHash : Option String) : RunOutput :=
  if pairs.isEmpty then
    { successCount := 0, totalCount := 0, notificationContent := [],
      currentBalances := [], currentBalanceHash := none, balanceChanged := false,
      savedHash := none, notificationSent := false, exitCode := 1 }
  else
    let st := runLoopAux 0 pairs ⟨0, [], [], false⟩
    let currentHash :=
      if st.currentBalances.isEmpty then none
      else some (generate_balance_hash st.currentBalances)
    let changed := balance_changed_decision lastHash currentHash
    let needNotify := st.needNotify || changed
    let balanceLines := if changed then balanceLinesAux st.currentBalances 0 pairs else []
    let content := st.notificationContent ++ balanceLines
    { successCount := st.successCount,
      totalCount := pairs.length,
      notificationContent := content,
      currentBalances := st.currentBalances,
      currentBalanceHash := currentHash,
      balanceChanged := changed,
      savedHash := currentHash,
      notificationSent := needNotify && !content.isEmpty,
      exitCode := if st.successCount > 0 then 0 else 1 }

/-! ## Observables of the per-account loop, used to state the claims -/

/-- The account's check-in counted as a success (an exception never does). -/
def isCheckSuccess : AccountResult → Bool
  | .ok true _ => true
  | _ => false

/-- The account's balance probe returned a successful record. -/
def probeSucceeded : AccountResult → Bool
  | .ok _ (some info) => info.success
  | _ => false

def excLine (name msg : String) : String :=
  "[FAIL] " ++ name ++ " exception: " ++ pyTake 50 msg ++ "..."

def checkFailLine (name : String) : String :=
  "[FAIL] " ++ name ++ " Check-in failed"

/-- The failure line(s) one account contributes to the notification. -/
def failLine1 (name : String) : AccountResult → List String
  | .exc msg => [excLine name msg]
  | .ok true _ => []
  | .ok false _ => [checkFailLine name]

def failLines (pairs : List (String × AccountResult)) : List String :=
  (pairs.map (fun p => failLine1 p.1 p.2)).flatten

/-- The balance entry one account contributes to `current_balances`. -/
def balEntry1 (i : Nat) : AccountResult → List (String × BalanceInfo)
  | .ok _ (some info) =>
      if info.success then [(accountKey i, ⟨info.quota, info.used⟩)] else []
  | _ => []

def balEntries : Nat → List (String × AccountResult) → List (String × BalanceInfo)
  | _, [] => []
  | i, p :: rest => balEntry1 i p.2 ++ balEntries (i + 1) rest

def countCheckSuccess (pairs : List (String × AccountResult)) : Nat :=
  (pairs.filter (fun p => isCheckSuccess p.2)).length

def anyCheckFail (pairs : List (String × AccountResult)) : Bool :=
  pairs.any (fun p => !isCheckSuccess p.2)

theorem processAccount_eq (i : Nat) (name : String) (r : AccountResult) (st : RunState) :
    processAccount i name r st =
      ⟨st.successCount + (if isCheckSuccess r then 1 else 0),
       st.notificationContent ++ failLine1 name r,
       st.currentBalances ++ balEntry1 i r,
       st.needNotify || !isCheckSuccess r⟩ := by
  obtain ⟨sc, nc, cb, nn⟩ := st
  cases r with
  | exc msg => simp [processAccount, isCheckSuccess, failLine1, balEntry1, excLine]
  | ok succ ui =>
      cases ui with
      | none =>
          cases succ <;>
            simp [processAccount, isCheckSuccess, failLine1, balEntry1, checkFailLine]
      | some info =>
          cases succ <;> cases hinfo : info.success <;>
            simp [processAccount, isCheckSuccess, failLine1, balEntry1, checkFailLine, hinfo]

theorem countCheckSuccess_cons (p : String × AccountResult)
    (rest : List (String × AccountResult)) :
    countCheckSuccess (p :: rest) =
      (if isCheckSuccess p.2 then 1 else 0) + countCheckSuccess rest := by
  simp only [countCheckSuccess, List.filter]
  cases h : isCheckSuccess p.2 <;> simp [h, Nat.add_comm]

theorem failLines_cons (p : String × AccountResult) (rest : List (String × AccountResult)) :
    failLines (p :: rest) = failLine1 p.1 p.2 ++ failLines rest := by
  simp [failLines]

theorem runLoopAux_eq (pairs : List (String × AccountResult)) :
    ∀ (i : Nat) (st : RunState),
      runLoopAux i pairs st =
        ⟨st.successCount + countCheckSuccess pairs,
         st.notificationContent ++ failLines pairs,
         st.currentBalances ++ balEntries i pairs,
         st.needNotify || anyCheckFail pairs⟩ := by
  induction pairs with
  | nil =>
      intro i st
      obtain ⟨sc, nc, cb, nn⟩ := st
      simp [runLoopAux, countCheckSuccess, failLines, balEntries, anyCheckFail]
  | cons p rest ih =>
      intro i st
      rw [runLoopAux, processAccount_eq, ih]
      refine RunState.mk.injEq .. ▸ ?_
      simp only [countCheckSuccess_cons, failLines_cons, balEntries, List.any_cons,
        anyCheckFail]
      refine ⟨by omega, by simp [List.append_assoc], by simp [List.append_assoc], ?_⟩
      simp [anyCheckFail, Bool.or_assoc]

/-- The loop state `main` reaches after processing all accounts. -/
def mainState (pairs : List (String × AccountResult)) : RunState :=
  ⟨countCheckSuccess pairs, failLines pairs, balEntries 0 pairs, anyCheckFail pairs⟩

theorem runLoop_eq (pairs : List (String × AccountResult)) :
    runLoopAux 0 pairs ⟨0, [], [], false⟩ = mainState pairs := by
  rw [runLoopAux_eq]
  simp [mainState]

/-! ## Session lemmas and session claims -/

/-- Collapsed control flow of `run_playwright_checkin`: the post-click keyword
re-scan affects only logging (both branches of lines 200-205 end in `True`). -/
theorem run_playwright_checkin_eq (w : PageWorld) :
    run_playwright_checkin w =
      if containsAnySub w.content already_markers then ⟨true, false, false, true⟩
      else if (button_texts.any (fun t => clickFirstVisible (locatorFor w.elements t)) ||
               cssFallbackClick w.elements) then ⟨false, true, true, true⟩
      else ⟨false, true, false, false⟩ := by
  unfold run_playwright_checkin
  split
  · rfl
  · simp only [ite_self]

/-- A page world where the post-navigation address is a login page: no
already-signed marker, no clickable element. -/
def loginWorld : PageWorld :=
  ⟨"https://anyrouter.top/login", "<html>Please log in</html>", [], "", 200⟩

/-- A page world with a clickable 签到 button whose post-click re-scan shows no
success keyword and whose action endpoint would answer HTTP 500. -/
def clickedWorld : PageWorld :=
  ⟨"https://anyrouter.top/console/personal", "please check in",
   [⟨"签到", true, true, false⟩], "nothing to report", 500⟩

/-- C1 counterexample: on a session whose post-navigation address indicates a
login page, element discovery *is* attempted (the code never inspects the
address), contradicting the claim that no discovery strategy runs after a
redirect. -/
theorem claim_C1_counterexample :
    indicatesLoginPage loginWorld.urlAfterNav = true ∧
    (run_playwright_checkin loginWorld).discoveryAttempted = true := by
  decide

/-- C1 (amended): `run_playwright_checkin` performs no login-redirect
detection.  For every session whose post-navigation address indicates a login
page, as long as the rendered content lacks an already-signed marker, element
discovery runs anyway, and if no element gets clicked the session returns the
plain failure boolean (the code produces no reason string at all). -/
theorem claim_C1 (w : PageWorld)
    (_hurl : indicatesLoginPage w.urlAfterNav = true)
    (hmark : containsAnySub w.content already_markers = false) :
    (run_playwright_checkin w).discoveryAttempted = true ∧
    ((run_playwright_checkin w).clicked = false →
      (run_playwright_checkin w).result = false) := by
  rw [run_playwright_checkin_eq, hmark]
  simp only [Bool.false_eq_true, if_false]
  split <;> simp

/-- C1 witness: the amended statement at the concrete login-page world. -/
theorem claim_C1_witness :
    (run_playwright_checkin loginWorld).discoveryAttempted = true ∧
    ((run_playwright_checkin loginWorld).clicked = false →
      (run_playwright_checkin loginWorld).result = false) :=
  claim_C1 loginWorld (by decide) (by decide)

/-- C8 counterexample: a clicked session whose action endpoint would answer
HTTP 500 and whose re-scan shows no success keyword still resolves to
success — the claimed non-200 exception branch does not exist in the code. -/
theorem claim_C8_counterexample :
    clickedWorld.actionStatus = 500 ∧
    containsAnySub clickedWorld.contentAfter success_keywords = false ∧
    (run_playwright_checkin clickedWorld).clicked = true ∧
    (run_playwright_checkin clickedWorld).result = true := by
  decide

/-- C8 (amended): after a click is performed the session always resolves to
success: the post-click content re-scan only changes the log line, and the
HTTP status of the action response is never consulted, so no status value can
turn the outcome into a failure. -/
theorem claim_C8 (w : PageWorld) (h : (run_playwright_checkin w).clicked = true) :
    (run_playwright_checkin w).result = true := by
  rw [run_playwright_checkin_eq] at h ⊢
  split at h <;> (try split at h) <;> simp_all

/-- C8 witness: the amended statement at the concrete clicked world. -/
theorem claim_C8_witness : (run_playwright_checkin clickedWorld).result = true :=
  claim_C8 clickedWorld (by decide)

/-! ## Cookie claims -/

/-- C2 counterexample: the claim says whitespace is trimmed from both sides of
the key and of the value, so `"a = 1"` would have to parse to `{a: "1"}`; the
code strips only the segment as a whole before splitting, yielding key `"a "`
and value `" 1"`. -/
theorem claim_C2_counterexample :
    parse_cookies (.str "a = 1") = [("a ", " 1")] ∧
    parse_cookies (.str "a = 1") ≠ [("a", "1")] := by
  decide

/-- C2 (amended): a mapping is returned unchanged; a string is split on `;`;
each segment containing `=` is stripped of surrounding whitespace *as a whole
segment* and then split on the first `=` only (whitespace adjacent to `=`
inside the segment stays in the key or value); segments without `=` are
silently dropped; any other input type yields an empty cookie set. -/
theorem claim_C2 :
    (∀ d : List (String × String), parse_cookies (.dict d) = d) ∧
    parse_cookies (.str "a=1;b=2; c=3") = [("a", "1"), ("b", "2"), ("c", "3")] ∧
    parse_cookies (.str "a=1;junk;b=2") = [("a", "1"), ("b", "2")] ∧
    parse_cookies (.str "a=b=c") = [("a", "b=c")] ∧
    parse_cookies (.str "a = 1") = [("a ", " 1")] ∧
    parse_cookies .other = [] :=
  ⟨fun _ => rfl, by decide, by decide, by decide, by decide, rfl⟩

/-- C2 witness: the dict-passthrough clause at a concrete mapping. -/
theorem claim_C2_witness :
    parse_cookies (.dict [("session", "tok")]) = [("session", "tok")] :=
  claim_C2.1 [("session", "tok")]

/-! ## Coordinator lemmas -/

theorem isEmpty_false_iff {α : Type} (l : List α) : l.isEmpty = false ↔ l ≠ [] := by
  cases l <;> simp

theorem balEntry1_eq_nil {i : Nat} {r : AccountResult} (h : probeSucceeded r = false) :
    balEntry1 i r = [] := by
  cases r with
  | exc m => rfl
  | ok s ui =>
      cases ui with
      | none => rfl
      | some info => simp [probeSucceeded] at h; simp [balEntry1, h]

theorem balEntries_eq_nil {pairs : List (String × AccountResult)}
    (h : ∀ p ∈ pairs, probeSucceeded p.2 = false) :
    ∀ i, balEntries i pairs = [] := by
  induction pairs with
  | nil => intro i; rfl
  | cons p rest ih =>
      intro i
      rw [balEntries, balEntry1_eq_nil (h p (by simp)), List.nil_append]
      exact ih (fun q hq => h q (by simp [hq])) (i + 1)

theorem countCheckSuccess_pos_iff (pairs : List (String × AccountResult)) :
    0 < countCheckSuccess pairs ↔ ∃ p ∈ pairs, isCheckSuccess p.2 = true := by
  simp only [countCheckSuccess, List.length_pos, Ne, List.filter_eq_nil_iff]
  push_neg
  constructor
  · rintro ⟨p, hp, hs⟩; exact ⟨p, hp, hs⟩
  · rintro ⟨p, hp, hs⟩; exact ⟨p, hp, hs⟩

theorem anyCheckFail_iff (pairs : List (String × AccountResult)) :
    anyCheckFail pairs = true ↔ ∃ p ∈ pairs, isCheckSuccess p.2 = false := by
  simp [anyCheckFail]

theorem excLine_mem_failLines (pairs : List (String × AccountResult)) :
    ∀ (i : Nat) (name msg : String), pairs.get? i = some (name, .exc msg) →
      excLine name msg ∈ failLines pairs := by
  induction pairs with
  | nil => intro i name msg h; simp at h
  | cons p rest ih =>
      intro i name msg h
      rw [failLines_cons]
      cases i with
      | zero =>
          simp only [List.get?] at h
          injection h with h
          subst h
          simp [failLine1]
      | succ j =>
          simp only [List.get?] at h
          exact List.mem_append_right _ (ih j name msg h)

theorem failLines_ne_nil {pairs : List (String × AccountResult)}
    (h : anyCheckFail pairs = true) : failLines pairs ≠ [] := by
  induction pairs with
  | nil => simp [anyCheckFail] at h
  | cons p rest ih =>
      rw [failLines_cons]
      rcases List.any_eq_true.mp h with ⟨q, hq, hfail⟩
      rcases List.mem_cons.mp hq with hq | hq
      · subst hq
        intro hnil
        rcases List.append_eq_nil.mp hnil with ⟨h1, _⟩
        cases hr : q.2 with
        | exc m => simp [failLine1, hr] at h1
        | ok s ui =>
            cases s
            · simp [failLine1, hr] at h1
            · simp [isCheckSuccess, hr] at hfail
      · intro hnil
        rcases List.append_eq_nil.mp hnil with ⟨_, h2⟩
        exact ih (List.any_eq_true.mpr ⟨q, hq, hfail⟩) h2

theorem balEntry1_key {i : Nat} {r : AccountResult} {k : String} {b : BalanceInfo}
    (h : (k, b) ∈ balEntry1 i r) : k = accountKey i := by
  cases r with
  | exc m => simp [balEntry1] at h
  | ok s ui =>
      cases ui with
      | none => simp [balEntry1] at h
      | some info =>
          by_cases hs : info.success = true
          · simp [balEntry1, hs] at h
            exact h.1
          · simp [balEntry1, hs] at h

theorem balEntries_key_exists {pairs : List (String × AccountResult)} :
    ∀ i, balEntries i pairs ≠ [] →
      ∃ j b, i ≤ j ∧ j < i + pairs.length ∧ (accountKey j, b) ∈ balEntries i pairs := by
  induction pairs with
  | nil => intro i h; simp [balEntries] at h
  | cons p rest ih =>
      intro i h
      rw [balEntries] at h ⊢
      by_cases h1 : balEntry1 i p.2 = []
      · rw [h1, List.nil_append] at h ⊢
        rcases ih (i + 1) h with ⟨j, b, hij, hjl, hmem⟩
        exact ⟨j, b, by omega, by simp; omega, hmem⟩
      · rcases List.exists_mem_of_ne_nil _ h1 with ⟨⟨k, b⟩, hmem⟩
        have hk := balEntry1_key hmem
        subst hk
        exact ⟨i, b, le_refl i, by simp, List.mem_append_left _ hmem⟩

theorem find?_isSome_of_key_mem {bals : List (String × BalanceInfo)} {j : Nat}
    {b : BalanceInfo} (h : (accountKey j, b) ∈ bals) :
    (bals.find? (fun q => q.1 == accountKey j)).isSome = true := by
  rw [List.find?_isSome]
  exact ⟨(accountKey j, b), h, by simp⟩

theorem balanceLinesAux_ne_nil (bals : List (String × BalanceInfo))
    (pairs : List (String × AccountResult)) :
    ∀ i j, i ≤ j → j < i + pairs.length →
      (bals.find? (fun q => q.1 == accountKey j)).isSome = true →
      balanceLinesAux bals i pairs ≠ [] := by
  induction pairs with
  | nil => intro i j hij hjl _; simp at hjl; omega
  | cons p rest ih =>
      intro i j hij hjl hfind
      rw [balanceLinesAux]
      by_cases he : j = i
      · subst he
        rcases Option.isSome_iff_exists.mp hfind with ⟨b, hb⟩
        rw [hb]
        simp
      · intro hnil
        rcases List.append_eq_nil.mp hnil with ⟨_, h2⟩
        have : j < (i + 1) + rest.length := by simp at hjl; omega
        exact ih (i + 1) j (by omega) this hfind h2

/-- The current-run fingerprint `main` computes after the loop (line 350). -/
def mainHash (pairs : List (String × AccountResult)) : Option String :=
  if (balEntries 0 pairs).isEmpty then none
  else some (generate_balance_hash (balEntries 0 pairs))

theorem runMain_successCount (pairs : List (String × AccountResult)) (lastHash : Option String) :
    (runMain pairs lastHash).successCount = countCheckSuccess pairs := by
  by_cases hp : pairs = []
  · subst hp; rfl
  · have hp' : pairs.isEmpty = false := (isEmpty_false_iff pairs).mpr hp
    simp [runMain, hp', runLoop_eq, mainState]

theorem runMain_currentBalances (pairs : List (String × AccountResult)) (lastHash : Option String) :
    (runMain pairs lastHash).currentBalances = balEntries 0 pairs := by
  by_cases hp : pairs = []
  · subst hp; rfl
  · have hp' : pairs.isEmpty = false := (isEmpty_false_iff pairs).mpr hp
    simp [runMain, hp', runLoop_eq, mainState]

theorem runMain_currentBalanceHash (pairs : List (String × AccountResult))
    (lastHash : Option String) :
    (runMain pairs lastHash).currentBalanceHash = mainHash pairs := by
  by_cases hp : pairs = []
  · subst hp; rfl
  · have hp' : pairs.isEmpty = false := (isEmpty_false_iff pairs).mpr hp
    simp [runMain, hp', runLoop_eq, mainState, mainHash]

theorem runMain_savedHash (pairs : List (String × AccountResult)) (lastHash : Option String) :
    (runMain pairs lastHash).savedHash = mainHash pairs := by
  by_cases hp : pairs = []
  · subst hp; rfl
  · have hp' : pairs.isEmpty = false := (isEmpty_false_iff pairs).mpr hp
    simp [runMain, hp', runLoop_eq, mainState, mainHash]

theorem runMain_balanceChanged (pairs : List (String × AccountResult)) (lastHash : Option String) :
    (runMain pairs lastHash).balanceChanged =
      balance_changed_decision lastHash (mainHash pairs) := by
  by_cases hp : pairs = []
  · subst hp; rfl
  · have hp' : pairs.isEmpty = false := (isEmpty_false_iff pairs).mpr hp
    simp [runMain, hp', runLoop_eq, mainState, mainHash]

theorem runMain_notificationContent (pairs : List (String × AccountResult))
    (lastHash : Option String) :
    (runMain pairs lastHash).notificationContent =
      failLines pairs ++
        (if balance_changed_decision lastHash (mainHash pairs) = true then
          balanceLinesAux (balEntries 0 pairs) 0 pairs
        else []) := by
  by_cases hp : pairs = []
  · subst hp; rfl
  · have hp' : pairs.isEmpty = false := (isEmpty_false_iff pairs).mpr hp
    simp [runMain, hp', runLoop_eq, mainState, mainHash]

theorem runMain_notificationSent (pairs : List (String × AccountResult))
    (lastHash : Option String) :
    (runMain pairs lastHash).notificationSent =
      ((anyCheckFail pairs || balance_changed_decision lastHash (mainHash pairs)) &&
        !(failLines pairs ++
            (if balance_changed_decision lastHash (mainHash pairs) = true then
              balanceLinesAux (balEntries 0 pairs) 0 pairs
            else [])).isEmpty) := by
  by_cases hp : pairs = []
  · subst hp; rfl
  · have hp' : pairs.isEmpty = false := (isEmpty_false_iff pairs).mpr hp
    simp [runMain, hp', runLoop_eq, mainState, mainHash]

theorem runMain_exitCode (pairs : List (String × AccountResult)) (lastHash : Option String) :
    (runMain pairs lastHash).exitCode =
      if 0 < countCheckSuccess pairs then 0 else 1 := by
  by_cases hp : pairs = []
  · subst hp; rfl
  · have hp' : pairs.isEmpty = false := (isEmpty_false_iff pairs).mpr hp
    simp [runMain, hp', runLoop_eq, mainState]

/-! ## Coordinator claims -/

/-- C4: the balance-change decision of `main` (lines 349-362): a current
fingerprint with no persisted one counts as changed; identical fingerprints
count as unchanged; differing fingerprints count as changed; and `runMain`
indeed decides `balanceChanged` by this function applied to the persisted and
current fingerprints. -/
theorem claim_C4 :
    (∀ F : String, balance_changed_decision none (some F) = true) ∧
    (∀ F : String, balance_changed_decision (some F) (some F) = false) ∧
    (∀ F1 F2 : String, F1 ≠ F2 → balance_changed_decision (some F1) (some F2) = true) ∧
    (∀ (pairs : List (String × AccountResult)) (lastHash : Option String),
        (runMain pairs lastHash).balanceChanged =
          balance_changed_decision lastHash (runMain pairs lastHash).currentBalanceHash) := by
  refine ⟨fun F => rfl, fun F => by simp [balance_changed_decision], ?_, ?_⟩
  · intro F1 F2 h
    simp [balance_changed_decision, bne_iff_ne]
    exact fun hh => h hh.symm
  · intro pairs lastHash
    rw [runMain_balanceChanged, runMain_currentBalanceHash]

/-- C4 witness: the three clauses at concrete fingerprints. -/
theorem claim_C4_witness :
    balance_changed_decision none (some "002cc921cc79e268") = true ∧
    balance_changed_decision (some "002cc921cc79e268") (some "002cc921cc79e268") = false ∧
    balance_changed_decision (some "002cc921cc79e268") (some "e2081aa5b60f675f") = true :=
  ⟨claim_C4.1 "002cc921cc79e268", claim_C4.2.1 "002cc921cc79e268",
   claim_C4.2.2.1 "002cc921cc79e268" "e2081aa5b60f675f" (by decide)⟩

/-- C5: when no account's balance probe succeeded, the current balance report
is empty, so `main` computes no current fingerprint and never calls
`save_balance_hash` — the persisted fingerprint is left unchanged. -/
theorem claim_C5 (pairs : List (String × AccountResult)) (lastHash : Option String)
    (h : ∀ p ∈ pairs, probeSucceeded p.2 = false) :
    (runMain pairs lastHash).currentBalances = [] ∧
    (runMain pairs lastHash).savedHash = none := by
  have hb : balEntries 0 pairs = [] := balEntries_eq_nil h 0
  rw [runMain_currentBalances, runMain_savedHash]
  simp [mainHash, hb]

/-- C5 witness: a run whose single account checked in but whose probe failed
stores nothing. -/
theorem claim_C5_witness :
    (runMain [("acc1", .ok true none)] (some "002cc921cc79e268")).currentBalances = [] ∧
    (runMain [("acc1", .ok true none)] (some "002cc921cc79e268")).savedHash = none :=
  claim_C5 _ _ (by decide)

/-- Concrete C6 scenario: three accounts, the second of which raises during
processing. -/
def exScenario : List (String × AccountResult) :=
  [("acc1", .ok true none), ("acc2", .exc "boom"), ("acc3", .ok true none)]

/-- C6: an exception while processing one account is converted into a failure
record and does not stop the other accounts: the success count always counts
every account whose result was a successful check-in, every raising account
contributes its exception line to the notification, and in the concrete
3-account scenario where account 2 throws, accounts 1 and 3 are still counted
and the exit code reflects their success. -/
theorem claim_C6 :
    (∀ (pairs : List (String × AccountResult)) (lastHash : Option String),
        (runMain pairs lastHash).successCount = countCheckSuccess pairs) ∧
    (∀ (pairs : List (String × AccountResult)) (lastHash : Option String)
        (i : Nat) (name msg : String),
        pairs.get? i = some (name, .exc msg) →
        excLine name msg ∈ (runMain pairs lastHash).notificationContent) ∧
    ((runMain exScenario none).successCount = 2 ∧
      (runMain exScenario none).exitCode = 0 ∧
      (runMain exScenario none).notificationContent = [excLine "acc2" "boom"]) := by
  refine ⟨fun pairs lastHash => runMain_successCount pairs lastHash, ?_, by decide⟩
  intro pairs lastHash i name msg h
  rw [runMain_notificationContent]
  exact List.mem_append_left _ (excLine_mem_failLines pairs i name msg h)

/-- C6 witness: the exception-line clause at the concrete scenario. -/
theorem claim_C6_witness :
    excLine "acc2" "boom" ∈ (runMain exScenario none).notificationContent :=
  claim_C6.2.1 exScenario none 1 "acc2" "boom" (by decide)

/-- C7: the exit status is 0 exactly when at least one account succeeded its
check-in, and 1 otherwise (an empty account list exits 1 before the loop). -/
theorem claim_C7 (pairs : List (String × AccountResult)) (lastHash : Option String) :
    ((runMain pairs lastHash).exitCode = 0 ↔ ∃ p ∈ pairs, isCheckSuccess p.2 = true) ∧
    ((runMain pairs lastHash).exitCode = 1 ↔ ¬∃ p ∈ pairs, isCheckSuccess p.2 = true) := by
  rw [runMain_exitCode]
  have hiff := countCheckSuccess_pos_iff pairs
  by_cases hc : 0 < countCheckSuccess pairs
  · simp [hc, hiff.mp hc]
  · have hne : ¬∃ p ∈ pairs, isCheckSuccess p.2 = true := fun he => hc (hiff.mpr he)
    simp [hc, hne]

/-- C7 witness: one successful account exits 0; an empty account list exits 1. -/
theorem claim_C7_witness :
    (runMain [("acc1", .ok true none)] none).exitCode = 0 ∧
    (runMain [] none).exitCode = 1 :=
  ⟨(claim_C7 _ none).1.mpr ⟨("acc1", .ok true none), by simp, rfl⟩,
   (claim_C7 [] none).2.mpr (by simp)⟩

/-- C9: a notification is sent exactly when at least one account failed its
check-in (including by exception) or a balance change was detected; a fully
successful run with an unchanged fingerprint sends nothing. -/
theorem claim_C9 (pairs : List (String × AccountResult)) (lastHash : Option String) :
    (runMain pairs lastHash).notificationSent = true ↔
      ((∃ p ∈ pairs, isCheckSuccess p.2 = false) ∨
        (runMain pairs lastHash).balanceChanged = true) := by
  rw [runMain_notificationSent, runMain_balanceChanged]
  constructor
  · intro h
    rw [Bool.and_eq_true, Bool.or_eq_true] at h
    rcases h with ⟨h1 | h1, _⟩
    · exact Or.inl ((anyCheckFail_iff pairs).mp h1)
    · exact Or.inr h1
  · intro h
    rw [Bool.and_eq_true]
    have hcontent : (failLines pairs ++
        (if balance_changed_decision lastHash (mainHash pairs) = true then
          balanceLinesAux (balEntries 0 pairs) 0 pairs
        else [])) ≠ [] := by
      rcases h with h | h
      · intro hnil
        rcases List.append_eq_nil.mp hnil with ⟨h1, _⟩
        exact failLines_ne_nil ((anyCheckFail_iff pairs).mpr h) h1
      · rw [if_pos h]
        have hbe : balEntries 0 pairs ≠ [] := by
          intro hbe
          rw [mainHash, hbe] at h
          simp [balance_changed_decision] at h
        rcases balEntries_key_exists 0 hbe with ⟨j, b, _, hjl, hmem⟩
        have hfind := find?_isSome_of_key_mem hmem
        intro hnil
        rcases List.append_eq_nil.mp hnil with ⟨_, h2⟩
        exact balanceLinesAux_ne_nil (balEntries 0 pairs) pairs 0 j (Nat.zero_le j)
          (by omega) hfind h2
    refine ⟨?_, by simpa using hcontent⟩
    rw [Bool.or_eq_true]
    rcases h with h | h
    · exact Or.inl ((anyCheckFail_iff pairs).mpr h)
    · exact Or.inr h

/-- C9 witness: a run with one failing account sends a notification. -/
theorem claim_C9_witness :
    (runMain [("acc1", .ok false none)] none).notificationSent = true :=
  (claim_C9 _ none).mpr (Or.inl ⟨("acc1", .ok false none), by simp, rfl⟩)

/-! ## Fingerprint lemmas (C3, C10) -/

theorem keyLtB_irrefl : ∀ a : List Char, keyLtB a a = false := by
  intro a
  induction a with
  | nil => rfl
  | cons c cs ih => simp [keyLtB, ih]

theorem keyLtB_asymm : ∀ a b : List Char, keyLtB a b = true → keyLtB b a = false := by
  intro a
  induction a with
  | nil =>
      intro b h
      cases b with
      | nil => simp [keyLtB] at h
      | cons d ds => rfl
  | cons c cs ih =>
      intro b h
      cases b with
      | nil => simp [keyLtB] at h
      | cons d ds =>
          by_cases hcd : c = d
          · subst hcd
            simp only [keyLtB, if_pos rfl] at h ⊢
            exact ih ds h
          · simp only [keyLtB, if_neg hcd, decide_eq_true_eq] at h
            have hdc : ¬d = c := fun hh => hcd hh.symm
            simp only [keyLtB, if_neg hdc, decide_eq_false_iff_not]
            exact lt_asymm h

theorem keyLtB_trans :
    ∀ a b c : List Char, keyLtB a b = true → keyLtB b c = true → keyLtB a c = true := by
  intro a
  induction a with
  | nil =>
      intro b c h1 h2
      cases b with
      | nil => simp [keyLtB] at h1
      | cons y ys =>
          cases c with
          | nil => simp [keyLtB] at h2
          | cons z zs => rfl
  | cons x xs ih =>
      intro b c h1 h2
      cases b with
      | nil => simp [keyLtB] at h1
      | cons y ys =>
          cases c with
          | nil => simp [keyLtB] at h2
          | cons z zs =>
              by_cases hxy : x = y <;> by_cases hyz : y = z
              · subst hxy; subst hyz
                simp only [keyLtB, if_pos rfl] at h1 h2 ⊢
                exact ih ys zs h1 h2
              · subst hxy
                simp only [keyLtB, if_pos rfl, if_neg hyz] at h1 h2 ⊢
                exact h2
              · subst hyz
                simp only [keyLtB, if_neg hxy, if_pos rfl] at h1 h2 ⊢
                exact h1
              · simp only [keyLtB, if_neg hxy, if_neg hyz, decide_eq_true_eq] at h1 h2
                have hxz : ¬x = z := by
                  intro hh
                  subst hh
                  exact lt_asymm h1 h2
                simp only [keyLtB, if_neg hxz, decide_eq_true_eq]
                exact lt_trans h1 h2

theorem keyLtB_eq_of_both_false :
    ∀ a b : List Char, keyLtB a b = false → keyLtB b a = false → a = b := by
  intro a
  induction a with
  | nil =>
      intro b h1 _
      cases b with
      | nil => rfl
      | cons d ds => simp [keyLtB] at h1
  | cons c cs ih =>
      intro b h1 h2
      cases b with
      | nil => simp [keyLtB] at h2
      | cons d ds =>
          by_cases hcd : c = d
          · subst hcd
            simp only [keyLtB, if_pos rfl] at h1 h2
            rw [ih ds h1 h2]
          · have hdc : ¬d = c := fun hh => hcd hh.symm
            simp only [keyLtB, if_neg hcd, decide_eq_false_iff_not] at h1
            simp only [keyLtB, if_neg hdc, decide_eq_false_iff_not] at h2
            rcases lt_or_gt_of_ne hcd with h | h
            · exact absurd h h1
            · exact absurd h h2

theorem keyLtB_neg_trans {a b c : List Char} (h1 : keyLtB b a = false)
    (h2 : keyLtB c b = false) : keyLtB c a = false := by
  cases hca : keyLtB c a with
  | false => rfl
  | true =>
      exfalso
      cases hbc : keyLtB b c with
      | true => exact absurd (keyLtB_trans b c a hbc hca) (by simp [h1])
      | false =>
          have := keyLtB_eq_of_both_false c b h2 hbc
          subst this
          exact absurd hca (by simp [h1])

instance : IsTotal (String × String) pairLe :=
  ⟨by
    intro p q
    cases hpq : keyLtB p.1.data q.1.data with
    | true => exact Or.inl (Or.inl hpq)
    | false =>
        cases hqp : keyLtB q.1.data p.1.data with
        | true => exact Or.inr (Or.inl hqp)
        | false =>
            have hk := keyLtB_eq_of_both_false _ _ hpq hqp
            cases hv : keyLtB q.2.data p.2.data with
            | false => exact Or.inl (Or.inr ⟨hk, hv⟩)
            | true => exact Or.inr (Or.inr ⟨hk.symm, keyLtB_asymm _ _ hv⟩)⟩

instance : IsTrans (String × String) pairLe :=
  ⟨by
    rintro p q r (h1 | ⟨h1e, h1v⟩) (h2 | ⟨h2e, h2v⟩)
    · exact Or.inl (keyLtB_trans _ _ _ h1 h2)
    · exact Or.inl (h2e ▸ h1)
    · exact Or.inl (h1e ▸ h2)
    · exact Or.inr ⟨h1e.trans h2e, keyLtB_neg_trans h1v h2v⟩⟩

instance : IsAntisymm (String × String) pairLe :=
  ⟨by
    rintro ⟨pk, pv⟩ ⟨qk, qv⟩ (h1 | ⟨h1e, h1v⟩) (h2 | ⟨h2e, h2v⟩)
    · exact absurd (keyLtB_asymm _ _ h1) (by simp [h2])
    · exact absurd h1 (by rw [h2e, keyLtB_irrefl]; simp)
    · exact absurd h2 (by rw [h1e, keyLtB_irrefl]; simp)
    · have hk : pk = qk := String.ext h1e
      have hv : pv = qv := String.ext (keyLtB_eq_of_both_false _ _ h2v h1v)
      rw [hk, hv]⟩

theorem generate_balance_hash_eq (b : List (String × BalanceInfo)) :
    generate_balance_hash b = sha256hex16 (balance_json (quotaPairs b)) := by
  cases b <;> rfl

theorem sortPairs_eq_of_perm {l1 l2 : List (String × String)} (h : l1.Perm l2) :
    sortPairs l1 = sortPairs l2 :=
  List.eq_of_perm_of_sorted
    (((List.perm_insertionSort pairLe l1).trans h).trans
      (List.perm_insertionSort pairLe l2).symm)
    (List.sorted_insertionSort pairLe l1)
    (List.sorted_insertionSort pairLe l2)

theorem generate_balance_hash_perm {b1 b2 : List (String × BalanceInfo)}
    (h : (quotaPairs b1).Perm (quotaPairs b2)) :
    generate_balance_hash b1 = generate_balance_hash b2 := by
  rw [generate_balance_hash_eq, generate_balance_hash_eq, balance_json, balance_json,
    sortPairs_eq_of_perm h]

theorem str_cancel_left {a x y : String} (h : a ++ x = a ++ y) : x = y := by
  apply String.ext
  have hd := congrArg String.data h
  rw [String.data_append, String.data_append] at hd
  exact (List.append_right_inj a.data).mp hd

theorem str_cancel_right {b x y : String} (h : x ++ b = y ++ b) : x = y := by
  apply String.ext
  have hd := congrArg String.data h
  rw [String.data_append, String.data_append] at hd
  exact (List.append_left_inj b.data).mp hd

theorem joinSep_cons_of_ne_nil {l : List String} (x : String) (h : l ≠ []) :
    joinSep (x :: l) = x ++ ("," ++ joinSep l) := by
  cases l with
  | nil => exact absurd rfl h
  | cons y t => rfl

theorem joinSep_ne (A : List String) (r r' : String) (B : List String) (hne : r ≠ r') :
    joinSep (A ++ r :: B) ≠ joinSep (A ++ r' :: B) := by
  induction A with
  | nil =>
      cases B with
      | nil => simpa [joinSep] using hne
      | cons b bs =>
          simp only [List.nil_append]
          rw [joinSep_cons_of_ne_nil r (by simp), joinSep_cons_of_ne_nil r' (by simp)]
          intro h
          exact hne (str_cancel_right h)
  | cons a A' ih =>
      simp only [List.cons_append]
      rw [joinSep_cons_of_ne_nil a (by simp), joinSep_cons_of_ne_nil a (by simp)]
      intro h
      exact ih (str_cancel_left (str_cancel_left h))

theorem renderPair_value_inj {k q q' : String} (h : renderPair (k, q) = renderPair (k, q')) :
    q = q' :=
  str_cancel_left h

/-- Substituting a new value at key `k` (pointwise; the identity away from
`k`). -/
def replaceAt (k q' : String) (p : String × String) : String × String :=
  if p.1 = k then (k, q') else p

theorem replaceAt_fst (k q' : String) (p : String × String) :
    (replaceAt k q' p).1 = p.1 := by
  unfold replaceAt
  split
  · rename_i h; exact h.symm
  · rfl

theorem map_replaceAt_eq_self {k q' : String} {l : List (String × String)}
    (h : ∀ p ∈ l, p.1 ≠ k) : l.map (replaceAt k q') = l := by
  induction l with
  | nil => rfl
  | cons p t ih =>
      have hp : replaceAt k q' p = p := by
        unfold replaceAt
        rw [if_neg (h p (by simp))]
      rw [List.map_cons, hp, ih (fun p hp => h p (by simp [hp]))]

theorem pairwise_key_lt_of_sorted_nodup {s : List (String × String)}
    (hs : List.Sorted pairLe s) (hnd : (s.map Prod.fst).Nodup) :
    s.Pairwise (fun p q => keyLtB p.1.data q.1.data = true) := by
  have hne : s.Pairwise (fun p q => p.1 ≠ q.1) := List.pairwise_map.mp hnd
  have hand := List.Pairwise.and hs hne
  exact hand.imp (fun h => by
    rcases h with ⟨hle | ⟨he, _⟩, hne2⟩
    · exact hle
    · exact absurd (String.ext he) hne2)

theorem sorted_map_replaceAt (k q' : String) {s : List (String × String)}
    (hs : s.Pairwise (fun p q => keyLtB p.1.data q.1.data = true)) :
    List.Sorted pairLe (s.map (replaceAt k q')) := by
  have hmap : (s.map (replaceAt k q')).Pairwise
      (fun p q => keyLtB p.1.data q.1.data = true) := by
    rw [List.pairwise_map]
    exact hs.imp (fun h => by rw [replaceAt_fst, replaceAt_fst]; exact h)
  exact hmap.imp (fun h => Or.inl h)

theorem keys_ne_of_nodup_decomp (v : String × String) {xs ys : List (String × String)}
    {k : String} (hv : v.1 = k)
    (hnd : ((xs ++ v :: ys).map Prod.fst).Nodup) :
    (∀ p ∈ xs, p.1 ≠ k) ∧ (∀ p ∈ ys, p.1 ≠ k) := by
  rw [List.map_append, List.map_cons, hv, List.nodup_append] at hnd
  rcases hnd with ⟨_, hcons, hdisj⟩
  constructor
  · intro p hp hpk
    exact hdisj (List.mem_map_of_mem Prod.fst hp) (by simp [hpk])
  · intro p hp hpk
    rcases List.nodup_cons.mp hcons with ⟨hk, _⟩
    exact hk (hpk ▸ List.mem_map_of_mem Prod.fst hp)

/-- Changing the quota recorded at one key changes the serialized fingerprint
input (the `json.dumps` string that gets hashed). -/
theorem balance_json_value_sensitive (xs ys : List (String × String)) (k q q' : String)
    (hnd : ((xs ++ (k, q) :: ys).map Prod.fst).Nodup) (hne : q ≠ q') :
    balance_json (xs ++ (k, q) :: ys) ≠ balance_json (xs ++ (k, q') :: ys) := by
  have hkeys := keys_ne_of_nodup_decomp (k, q) rfl hnd
  -- the changed list is the pointwise image of the original
  have hmapl : (xs ++ (k, q) :: ys).map (replaceAt k q') = xs ++ (k, q') :: ys := by
    rw [List.map_append, List.map_cons, map_replaceAt_eq_self hkeys.1,
      map_replaceAt_eq_self hkeys.2]
    congr 1
    rw [List.cons.injEq]
    exact ⟨by unfold replaceAt; rw [if_pos rfl], rfl⟩
  set s1 := sortPairs (xs ++ (k, q) :: ys) with hs1def
  have hs1sorted : List.Sorted pairLe s1 := List.sorted_insertionSort pairLe _
  have hs1perm : s1.Perm (xs ++ (k, q) :: ys) := List.perm_insertionSort pairLe _
  have hs1nodup : (s1.map Prod.fst).Nodup :=
    ((hs1perm.map Prod.fst).nodup_iff).mpr hnd
  have hs1strict := pairwise_key_lt_of_sorted_nodup hs1sorted hs1nodup
  have hmapsorted := sorted_map_replaceAt k q' hs1strict
  have hmapperm : (s1.map (replaceAt k q')).Perm (xs ++ (k, q') :: ys) :=
    hmapl ▸ hs1perm.map (replaceAt k q')
  have hsort2 : sortPairs (xs ++ (k, q') :: ys) = s1.map (replaceAt k q') :=
    List.eq_of_perm_of_sorted
      ((List.perm_insertionSort pairLe _).trans hmapperm.symm)
      (List.sorted_insertionSort pairLe _) hmapsorted
  have hmem : (k, q) ∈ s1 := hs1perm.mem_iff.mpr
    (List.mem_append_right _ (List.mem_cons_self _ _))
  rcases List.append_of_mem hmem with ⟨as, bs, hsplit⟩
  have hkeys1 : (∀ p ∈ as, p.1 ≠ k) ∧ (∀ p ∈ bs, p.1 ≠ k) :=
    keys_ne_of_nodup_decomp (k, q) rfl (hsplit ▸ hs1nodup)
  have hmapped : s1.map (replaceAt k q') = as ++ (k, q') :: bs := by
    rw [hsplit, List.map_append, List.map_cons, map_replaceAt_eq_self hkeys1.1,
      map_replaceAt_eq_self hkeys1.2]
    congr 2
    unfold replaceAt
    rw [if_pos rfl]
  intro hcontra
  rw [balance_json, balance_json, ← hs1def, hsort2, hmapped, hsplit] at hcontra
  rw [List.map_append, List.map_cons, List.map_append, List.map_cons] at hcontra
  have hjoin := str_cancel_left (str_cancel_right hcontra)
  exact joinSep_ne (as.map renderPair) (renderPair (k, q)) (renderPair (k, q'))
    (bs.map renderPair) (fun h => hne (renderPair_value_inj h)) hjoin

theorem balEntries_mem_of_probe (pairs : List (String × AccountResult)) :
    ∀ (s i : Nat) (name : String) (st : Bool) (info : UserInfo),
      pairs.get? i = some (name, .ok st (some info)) → info.success = true →
      (accountKey (s + i), ⟨info.quota, info.used⟩) ∈ balEntries s pairs := by
  induction pairs with
  | nil => intro s i name st info h _; simp at h
  | cons p rest ih =>
      intro s i name st info h hsucc
      rw [balEntries]
      cases i with
      | zero =>
          simp only [List.get?] at h
          injection h with h
          subst h
          apply List.mem_append_left
          simp [balEntry1, hsucc]
      | succ j =>
          simp only [List.get?] at h
          have := ih (s + 1) j name st info h hsucc
          have harith : s + (j + 1) = (s + 1) + j := by omega
          rw [harith]
          exact List.mem_append_right _ this

theorem balEntries_mem_inv (pairs : List (String × AccountResult)) :
    ∀ (s : Nat) (k : String) (b : BalanceInfo),
      (k, b) ∈ balEntries s pairs →
      ∃ (i : Nat) (name : String) (st : Bool) (info : UserInfo),
        pairs.get? i = some (name, .ok st (some info)) ∧ info.success = true ∧
        k = accountKey (s + i) ∧ b = ⟨info.quota, info.used⟩ := by
  induction pairs with
  | nil => intro s k b h; simp [balEntries] at h
  | cons p rest ih =>
      intro s k b h
      rw [balEntries] at h
      rcases List.mem_append.mp h with h | h
      · obtain ⟨pn, pr⟩ := p
        cases pr with
        | exc m => simp [balEntry1] at h
        | ok st ui =>
            cases ui with
            | none => simp [balEntry1] at h
            | some info =>
                by_cases hs : info.success = true
                · simp only [balEntry1, hs, if_pos] at h
                  rcases List.mem_singleton.mp h with h
                  injection h with h1 h2
                  exact ⟨0, pn, st, info, rfl, hs, by rw [Nat.add_zero]; exact h1, h2⟩
                · simp [balEntry1, hs] at h
      · rcases ih (s + 1) k b h with ⟨i, name, st, info, hget, hsucc, hkey, hb⟩
        refine ⟨i + 1, name, st, info, hget, hsucc, ?_, hb⟩
        rw [hkey]
        congr 1
        omega

/-! ## Fingerprint claims -/

/-- C3: the balance fingerprint depends only on the accountKey→quota mapping:
reports whose key→quota pairs agree as a multiset (any key order, any
used-quota values) hash identically; and changing the quota stored at any one
key changes the serialized `json.dumps` string that is hashed — witnessed at
the fingerprint level by a concrete quota change producing a different hash. -/
theorem claim_C3 :
    (∀ b1 b2 : List (String × BalanceInfo),
        (quotaPairs b1).Perm (quotaPairs b2) →
        generate_balance_hash b1 = generate_balance_hash b2) ∧
    (∀ (xs ys : List (String × String)) (k q qq : String),
        ((xs ++ (k, q) :: ys).map Prod.fst).Nodup → q ≠ qq →
        balance_json (xs ++ (k, q) :: ys) ≠ balance_json (xs ++ (k, qq) :: ys)) ∧
    generate_balance_hash [("account_1", ⟨"5.0", "1.0"⟩)] ≠
      generate_balance_hash [("account_1", ⟨"6.0", "1.0"⟩)] :=
  ⟨fun _ _ h => generate_balance_hash_perm h,
   fun xs ys k q qq hnd hne => balance_json_value_sensitive xs ys k q qq hnd hne,
   by decide⟩

/-- C3 witness: reordered keys and different used-quotas hash identically;
a one-key quota change alters the serialized hash input. -/
theorem claim_C3_witness :
    generate_balance_hash [("account_2", ⟨"7.0", "2.0"⟩), ("account_1", ⟨"5.0", "1.0"⟩)] =
      generate_balance_hash [("account_1", ⟨"5.0", "9.9"⟩), ("account_2", ⟨"7.0", "0.0"⟩)] ∧
    balance_json [("account_1", "5.0")] ≠ balance_json [("account_1", "6.0")] :=
  ⟨claim_C3.1 _ _ (List.Perm.swap ("account_1", "5.0") ("account_2", "7.0") []),
   claim_C3.2.1 [] [] "account_1" "5.0" "6.0" (by decide) (by decide)⟩

/-- Concrete C10 scenario: two accounts with successful probes (quota 5.0 and
7.0). -/
def fullScenario : List (String × AccountResult) :=
  [("acc1", .ok true (some ⟨true, "5.0", "1.0"⟩)),
   ("acc2", .ok true (some ⟨true, "7.0", "2.0"⟩))]

/-- The fingerprint persisted by `fullScenario`. -/
def fullHash : String :=
  generate_balance_hash [("account_1", ⟨"5.0", "1.0"⟩), ("account_2", ⟨"7.0", "2.0"⟩)]

/-- Concrete C10 scenario: same accounts and quotas, but account 2's balance
probe fails transiently. -/
def degradedScenario : List (String × AccountResult) :=
  [("acc1", .ok true (some ⟨true, "5.0", "1.0"⟩)), ("acc2", .ok true none)]

/-- C10: the fingerprint input is exactly the accounts whose balance probe
succeeded in this run: every successful probe contributes its entry, every
recorded entry stems from a successful probe, and the hashed report is the
resulting list; concretely, re-running `fullScenario` with account 2's probe
failing (quotas unchanged) produces a different fingerprint and is reported
as a balance change with a notification. -/
theorem claim_C10 :
    (∀ (pairs : List (String × AccountResult)) (lastHash : Option String),
        (runMain pairs lastHash).currentBalances = balEntries 0 pairs ∧
        (runMain pairs lastHash).currentBalanceHash =
          (if (balEntries 0 pairs).isEmpty then none
           else some (generate_balance_hash (balEntries 0 pairs)))) ∧
    (∀ (pairs : List (String × AccountResult)) (i : Nat) (name : String) (st : Bool)
        (info : UserInfo),
        pairs.get? i = some (name, .ok st (some info)) → info.success = true →
        (accountKey i, ⟨info.quota, info.used⟩) ∈ balEntries 0 pairs) ∧
    (∀ (pairs : List (String × AccountResult)) (k : String) (b : BalanceInfo),
        (k, b) ∈ balEntries 0 pairs →
        ∃ (i : Nat) (name : String) (st : Bool) (info : UserInfo),
          pairs.get? i = some (name, .ok st (some info)) ∧ info.success = true ∧
          k = accountKey i ∧ b = ⟨info.quota, info.used⟩) ∧
    ((runMain fullScenario none).currentBalanceHash = some fullHash ∧
      (runMain degradedScenario (some fullHash)).balanceChanged = true ∧
      (runMain degradedScenario (some fullHash)).notificationSent = true) := by
  refine ⟨?_, ?_, ?_, by decide⟩
  · intro pairs lastHash
    exact ⟨runMain_currentBalances pairs lastHash,
      runMain_currentBalanceHash pairs lastHash⟩
  · intro pairs i name st info h hsucc
    have := balEntries_mem_of_probe pairs 0 i name st info h hsucc
    rwa [Nat.zero_add] at this
  · intro pairs k b h
    rcases balEntries_mem_inv pairs 0 k b h with ⟨i, name, st, info, hget, hsucc, hkey, hb⟩
    exact ⟨i, name, st, info, hget, hsucc, by rwa [Nat.zero_add] at hkey, hb⟩

/-- C10 witness: the membership clauses at the concrete degraded scenario. -/
theorem claim_C10_witness :
    (accountKey 0, ⟨"5.0", "1.0"⟩) ∈ balEntries 0 degradedScenario ∧
    (runMain degradedScenario (some fullHash)).currentBalances =
      balEntries 0 degradedScenario :=
  ⟨claim_C10.2.1 degradedScenario 0 "acc1" true ⟨true, "5.0", "1.0"⟩ (by decide) rfl,
   (claim_C10.1 degradedScenario (some fullHash)).1⟩

end Anyrouter
